import Mathlib

/-!
# Verification of the kurzhozen terminal viewer (`src/app.rs`)

Shallow embedding of the single source file `src/app.rs`: the mode state
machine (`App::iterate_over_keys`), the footer layout (`App::footer`), the
ingestion loop (`App::read_input`) and the renderer (`App::redraw`), together
with a model of the external `regex` crate restricted to the one pattern
family the renderer builds, `(.*)(?P<m>Q)(.*)`.

Rust machine-integer subtractions (`usize`, `u16`) panic on underflow in a
debug build; such panics, and panics from `.unwrap()` / `.expect(..)`, are
modelled by returning `none`.
-/

/-- The two interaction modes (`enum Mode`, src/app.rs:15-19). -/
inductive Mode where
  | Normal
  | Search
deriving DecidableEq

/-- `Mode`'s `Display` impl prints the `Debug` variant name (src/app.rs:21-25),
so `"Normal"` or `"Search"`. -/
def modeName : Mode → List Char
  | Mode.Normal => "Normal".toList
  | Mode.Search => "Search".toList

/-- `App::footer` (src/app.rs:107-122): query text, then padding spaces, then
the mode name.  The padding length is the unchecked `usize` subtraction
`width - query.len() - mode.chars().count() - 1`; `none` models the panic when
it underflows, i.e. when `width < query.len() + mode.len() + 1`. -/
def footer (q : List Char) (m : Mode) (width : Nat) : Option (List Char) :=
  let mode := modeName m
  if width < q.length + mode.length + 1 then none
  else some (q ++ List.replicate (width - q.length - mode.length - 1) ' ' ++ mode)

/-- One capture of the renderer's regex: the contents of the three groups of
`(.*)(?P<m>Q)(.*)` — text before the match, the matched text, text after. -/
structure Seg where
  pre : List Char
  mat : List Char
  suf : List Char
deriving DecidableEq

/-- A buffer line as produced by `BufRead::read_line` keeps its trailing
newline; matching effectively happens on the text before it because `.` in the
regex does not match `\n`.  This strips the trailing newline when present. -/
def stripNl (h : List Char) : List Char :=
  if h.getLast? = some '\n' then h.dropLast else h

/-- `true` when the line ends in a newline (the shape `read_line` produces for
every line except possibly an unterminated last one). -/
def hasTrailingNl (h : List Char) : Bool := h.getLast? = some '\n'

/-- The line contains no interior newline: the only possible `\n` is the final
character.  Every line produced by `read_line` has this shape; it is the
precondition under which `modelCaptures` models the regex crate. -/
def lineShaped (h : List Char) : Bool := !((stripNl h).contains '\n')

/-- Characters with no special meaning to the regex crate.  A query made only
of these is matched literally by the pattern `(.*)(?P<m>Q)(.*)`. -/
def metaChars : List Char :=
  ['.', '^', '$', '*', '+', '?', '(', ')', '[', ']', '\x7b', '\x7d', '|', '\\', '\n']

/-- The query contains no regex metacharacter and no newline, so it is a
literal needle for the pattern built in `App::redraw` (src/app.rs:158). -/
def literalQuery (q : List Char) : Bool := q.all fun c => !(metaChars.contains c)

/-- `q` occurs in `text` at index `i` (as a contiguous substring). -/
def occursAt (text q : List Char) (i : Nat) : Bool := q.isPrefixOf (text.drop i)

/-- Highest index `≤ n` at which `q` occurs in `text`, scanning downward from
`n` — the order in which the greedy leading `(.*)` of the renderer's pattern
settles on a position for the needle. -/
def lastOccFrom (text q : List Char) : Nat → Option Nat
  | 0 => if occursAt text q 0 then some 0 else none
  | n + 1 => if occursAt text q (n + 1) then some (n + 1) else lastOccFrom text q n

/-- Index of the last occurrence of `q` in `text`, if any. -/
def lastOcc (text q : List Char) : Option Nat := lastOccFrom text q text.length

/-- Model of the external regex crate (a collaborator, not repository code):
the captures produced by `captures_iter` of the pattern
`(.*)(?P<m>Q)(.*)` built in `App::redraw` (src/app.rs:158-167), on a haystack
whose only newline is a trailing one (`lineShaped`) and for a query that the
pattern treats literally (`literalQuery`); `.` does not match `\n`.

* Empty query: the pattern matches everywhere.  The first match starts at 0
  and, both `(.*)` groups being greedy but stopped by `\n`, spans the whole
  newline-free prefix `text` with all of it in the first group.  The iterator
  then yields an empty all-groups-empty match before the trailing newline and,
  after stepping over it, another at end of haystack (rust-regex advances one
  character after an empty match).
* Non-empty query occurring in `text`: the leftmost match starts at 0; the
  greedy first group pushes the needle to its **last** occurrence `i`, and the
  greedy third group extends to the end of `text`, so the single match spans
  all of `text` and no further match fits in the remaining `"\n"`. -/
def modelCaptures (h q : List Char) : List Seg :=
  let text := stripNl h
  if q = [] then
    if hasTrailingNl h then
      if text = [] then [⟨text, [], []⟩, ⟨[], [], []⟩]
      else [⟨text, [], []⟩, ⟨[], [], []⟩, ⟨[], [], []⟩]
    else
      if text = [] then [⟨text, [], []⟩]
      else [⟨text, [], []⟩, ⟨[], [], []⟩]
  else
    match lastOcc text q with
    | none => []
    | some i => [⟨text.take i, q, text.drop (i + q.length)⟩]

/-- Model of `re.is_match(line)` (src/app.rs:162) for the same pattern family:
the pattern matches iff `captures_iter` yields at least one capture. -/
def modelIsMatch (h q : List Char) : Bool := !(modelCaptures h q).isEmpty

/-- Model of the external regex parser's acceptance of the pattern
`"(.*)(?P<m>" ++ q ++ ")(.*)"` built by `App::redraw` (src/app.rs:158-159),
restricted to group balance: an unmatched `(` or `)` in the query unbalances
the whole pattern and `Regex::new` rejects it, while a query with balanced (or
no) grouping characters leaves the pattern well formed.  Other syntax errors
of the full regex language are outside the model's scope; every query used in
a theorem below is either group-unbalanced or fully literal. -/
def groupBalance : List Char → Nat → Bool
  | [], d => d == 0
  | c :: rest, d =>
    if c = '(' then groupBalance rest (d + 1)
    else if c = ')' then
      match d with
      | 0 => false
      | d2 + 1 => groupBalance rest d2
    else groupBalance rest d

/-- The query compiles: `Regex::new` on the pattern built from `q` succeeds. -/
def compileOk (q : List Char) : Bool := groupBalance q 0

/-- Abstract render instructions written to the output in `App::redraw`:
cursor moves, text, the red-color toggles around a match, the inverse-video
toggles around the footer, clear-screen and flush. -/
inductive OutItem where
  | clearAll
  | goto (col row : Nat)
  | text (s : List Char)
  | highlightOn
  | highlightOff
  | invertOn
  | invertOff
  | flush
deriving DecidableEq

/-- The six writes of one `captures_iter` iteration (src/app.rs:167-177):
`Goto(1, height - i)`, prefix, red on, match, red off, suffix.  In this branch
the source has already checked `i < height`, so the `u16` subtraction is
safe. -/
def segItems (height i : Nat) (s : Seg) : List OutItem :=
  [OutItem.goto 1 (height - i), OutItem.text s.pre, OutItem.highlightOn,
   OutItem.text s.mat, OutItem.highlightOff, OutItem.text s.suf]

/-- The body loop of `App::redraw` (src/app.rs:161-189) over the reversed
buffer, `i` counting 0-based offsets from the newest line.

* A matching line with `i ≥ height` hits `break` — the loop ends.
* A matching line with `i < height` emits `segItems` for every capture.
* A **non-matching** line is written unconditionally — the source has no
  offset check on this branch — at `Goto(1, height - i as u16)`.  The cast
  truncates `i` to 16 bits and the `u16` subtraction panics (modelled `none`)
  when `i % 2^16 > height`.  -/
def drawLines (q : List Char) (height : Nat) : List (List Char) → Nat → Option (List OutItem)
  | [], _ => some []
  | line :: rest, i =>
    if modelIsMatch line q then
      if height ≤ i then some []
      else
        match drawLines q height rest (i + 1) with
        | none => none
        | some tail => some (((modelCaptures line q).map (segItems height i)).flatten ++ tail)
    else
      if height < i % 65536 then none
      else
        match drawLines q height rest (i + 1) with
        | none => none
        | some tail =>
          some (OutItem.goto 1 (height - i % 65536) :: OutItem.text line :: tail)

/-- `App::redraw` (src/app.rs:148-204): clear and flush, compile the regex
`"(.*)(?P<m>" ++ query ++ ")(.*)"` — the `.unwrap()` on `Regex::new` panics
(`none`) when the query does not compile — then draw the body walking the
buffer newest-first, flush, compute the footer (whose underflow also panics),
and draw it in inverse video at row `height`, flushing again. -/
def redraw (buffer : List (List Char)) (q : List Char) (m : Mode)
    (width height : Nat) : Option (List OutItem) :=
  if compileOk q then
    match drawLines q height buffer.reverse 0 with
    | none => none
    | some body =>
      match footer q m width with
      | none => none
      | some f =>
        some ([OutItem.clearAll, OutItem.flush] ++ body ++
          [OutItem.flush, OutItem.goto 1 height, OutItem.invertOn,
           OutItem.text f, OutItem.invertOff, OutItem.flush])
  else none

/-- One interaction with the input stream in `App::read_input`: a successful
`read_line` with data, clean end-of-input (`Ok(0)`), or a read error. -/
inductive ReadEvent where
  | line (s : List Char)
  | eof
  | fail
deriving DecidableEq

/-- `App::read_input` (src/app.rs:132-146) over a scripted input stream, with
`acc` the lines pushed so far.  `Ok(0)` (or an exhausted script, which an
`io` stream reports as `Ok(0)` forever) returns success with the buffer; a
read error hits `.expect("Failed to read input")`, which panics (`none`) —
the function can never return an error value for a failed read. -/
def read_input : List ReadEvent → List (List Char) → Option (List (List Char))
  | [], acc => some acc
  | ReadEvent.line s :: rest, acc => read_input rest (acc ++ [s])
  | ReadEvent.eof :: _, acc => some acc
  | ReadEvent.fail :: _, _ => none

/-- A key event as dispatched by `App::iterate_over_keys`: a character, a
control chord, Backspace, Escape, or any other key (folding the remaining
`termion::event::Key` variants, all of which hit the `(_, _)` no-op arm). -/
inductive Key where
  | char (c : Char)
  | ctrl (c : Char)
  | backspace
  | esc
  | other
deriving DecidableEq

/-- The mutable state of `App` touched by key handling: mode, query and the
line buffer (`raw_buffer`, which no key-event arm ever mutates). -/
structure AppState where
  mode : Mode
  query : List Char
  buffer : List (List Char)
deriving DecidableEq

/-- Outcome of handling one key: either the loop continues in a new state,
having redrawn or not, or it returns (`Ctrl-C`). -/
inductive StepResult where
  | cont (s : AppState) (redrawn : Bool)
  | exit
deriving DecidableEq

/-- The `match (self.mode, key)` dispatch of `App::iterate_over_keys`
(src/app.rs:60-91), arm for arm in source order: `Ctrl-C` exits in any mode;
`/` in Normal enters Search without redrawing; `'\n'` in Search is ignored;
Backspace in Search pops the query and redraws; any other character in Search
is pushed and redraws; Escape in Search resets the query, returns to Normal
and redraws; everything else is a no-op. -/
def step : AppState → Key → StepResult
  | ⟨m, q, buf⟩, k =>
    match m, k with
    | _, Key.ctrl 'c' => StepResult.exit
    | Mode.Normal, Key.char '/' => StepResult.cont ⟨Mode.Search, q, buf⟩ false
    | Mode.Search, Key.char '\n' => StepResult.cont ⟨Mode.Search, q, buf⟩ false
    | Mode.Search, Key.backspace => StepResult.cont ⟨Mode.Search, q.dropLast, buf⟩ true
    | Mode.Search, Key.char c => StepResult.cont ⟨Mode.Search, q ++ [c], buf⟩ true
    | Mode.Search, Key.esc => StepResult.cont ⟨Mode.Normal, [], buf⟩ true
    | m2, _ => StepResult.cont ⟨m2, q, buf⟩ false

/-- The key loop of `App::iterate_over_keys` run over a scripted key list:
fold `step`, stopping (state frozen) when a key exits the loop. -/
def run : AppState → List Key → AppState
  | s, [] => s
  | s, k :: ks =>
    match step s k with
    | StepResult.exit => s
    | StepResult.cont s2 _ => run s2 ks

/-- The state in which the interactive phase starts (`App::new`,
src/app.rs:42-51, after `read_input` has filled the buffer): Normal mode and
an empty query. -/
def initState (buffer : List (List Char)) : AppState := ⟨Mode.Normal, [], buffer⟩

/-- All indices at which `q` occurs in `text`.  For a one-character query
every occurrence is trivially non-overlapping, so for such a query this also
lists the left-to-right non-overlapping occurrences. -/
def allOccs (text q : List Char) : List Nat :=
  (List.range (text.length + 1)).filter (occursAt text q)

/-- Concatenation of the group contents of a capture list: the characters a
redraw writes for the line, highlight and cursor toggles aside. -/
def segsText (l : List Seg) : List Char :=
  (l.map fun s => s.pre ++ s.mat ++ s.suf).flatten

/-- C1: the claim says a query that does not compile into a valid matcher must
not abort a redraw.  In the code, `App::redraw` calls
`Regex::new(..).unwrap()` (src/app.rs:159), which panics on the unbalanced
query `"("`: the whole redraw aborts (modelled `none`) instead of treating
every line as non-matching. -/
theorem c1_invalid_pattern_aborts_redraw :
    redraw ["alpha\n".toList] ['('] Mode.Search 40 3 = none := rfl

/-- C2: the claim says computing the footer never underflows or panics.  In
the code, `App::footer` (src/app.rs:114) computes the padding with unchecked
`usize` subtraction, which underflows (panic, modelled `none`) at
`width = 5` with a 10-character query, instead of clamping to `width`. -/
theorem c2_footer_underflow_aborts :
    footer (List.replicate 10 'q') Mode.Normal 5 = none := rfl

/-- C4: the claim says every line whose offset from the newest line is
`≥ height` is skipped and at most `height` lines are drawn.  In the code the
`i >= height` check sits inside the `is_match` branch only
(src/app.rs:162-164): with `height = 1` and three lines matching nothing, the
non-matching branch draws the lines at offsets 1 and 2 anyway, and the `u16`
row arithmetic `height - i` (src/app.rs:185) underflows at offset 2, aborting
the redraw (modelled `none`). -/
theorem c4_offscreen_line_aborts_redraw :
    redraw ["x\n".toList, "y\n".toList, "z\n".toList] ['q'] Mode.Search 80 1 = none := rfl

/-- C6: the claim says a read failure is reported as an `InputError` value
propagating to the Controller.  In the code, `App::read_input`
(src/app.rs:135-138) calls `.expect("Failed to read input")`, which panics on
a failed read (modelled `none`) — the function returns no error value — while
clean end-of-input does return the ingested buffer. -/
theorem c6_read_failure_aborts :
    read_input [ReadEvent.fail] [] = none ∧
    read_input [ReadEvent.line ("a\n".toList), ReadEvent.eof] [] = some ["a\n".toList] :=
  ⟨rfl, rfl⟩

/-- C3 counterexample: the claim says an empty query renders every line with
no highlight toggles.  With the empty query the built pattern
`(.*)(?P<m>)(.*)` matches every line, and the redraw of the one-line buffer
`["alpha\n"]` does emit a highlight-on toggle. -/
theorem c3_counterexample_toggles_emitted :
    OutItem.highlightOn ∈ (redraw ["alpha\n".toList] [] Mode.Search 40 3).getD [] := by
  decide

/-- C5 counterexample: the claim says the engine produces one triple per
non-overlapping occurrence, found left-to-right, highlighting the first
occurrence.  On the line `"banana\n"` with query `"a"` there are three
(pairwise non-overlapping) occurrences, at indices 1, 3 and 5, but the code
produces a single capture, and it is the one of the **last** occurrence
(prefix `"banan"`), not the first (which would be `⟨"b", "a", "nana"⟩`). -/
theorem c5_counterexample_last_not_first :
    modelCaptures ("banana\n".toList) ['a'] = [⟨"banan".toList, ['a'], []⟩] ∧
    allOccs ("banana".toList) ['a'] = [1, 3, 5] ∧
    Seg.mk ['b'] ['a'] ("nana".toList) ∉ modelCaptures ("banana\n".toList) ['a'] ∧
    (modelCaptures ("banana\n".toList) ['a']).length ≠ (allOccs ("banana".toList) ['a']).length := by
  refine ⟨by decide, by decide, by decide, by decide⟩

/-- Helper: one key-handling step preserves the invariant that the query is
empty outside Search mode. -/
theorem step_preserves_inv (s : AppState) (k : Key) (s2 : AppState) (b : Bool)
    (hs : s.query = [] ∨ s.mode = Mode.Search)
    (h : step s k = StepResult.cont s2 b) :
    s2.query = [] ∨ s2.mode = Mode.Search := by
  obtain ⟨m, q, buf⟩ := s
  simp only [step] at h
  split at h <;> simp_all
  all_goals (obtain ⟨h1, h2⟩ := h; subst h1; simp_all)

/-- Helper: the invariant holds after any scripted key list. -/
theorem run_preserves_inv :
    ∀ (ks : List Key) (s : AppState), (s.query = [] ∨ s.mode = Mode.Search) →
      ((run s ks).query = [] ∨ (run s ks).mode = Mode.Search) := by
  intro ks
  induction ks with
  | nil => intro s hs; exact hs
  | cons k ks ih =>
    intro s hs
    simp only [run]
    cases hstep : step s k with
    | exit => exact hs
    | cont s2 b => exact ih s2 (step_preserves_inv s k s2 b hs hstep)

/-- C7: in every state reachable from the initial state (Normal mode, empty
query) by any sequence of key events, the query is non-empty only while the
mode is Search — equivalently, the query is empty or the mode is Search. -/
theorem c7_query_nonempty_only_in_search (buffer : List (List Char)) (ks : List Key) :
    (run (initState buffer) ks).query = [] ∨ (run (initState buffer) ks).mode = Mode.Search :=
  run_preserves_inv ks (initState buffer) (Or.inl rfl)

/-- C7 witness: after `/` then `a` the query is `"a"` and the mode is
Search, so the invariant's second disjunct is realised at a concrete input. -/
theorem c7_query_nonempty_only_in_search_witness :
    (run (initState ["alpha\n".toList]) [Key.char '/', Key.char 'a']).query = [] ∨
    (run (initState ["alpha\n".toList]) [Key.char '/', Key.char 'a']).mode = Mode.Search :=
  c7_query_nonempty_only_in_search ["alpha\n".toList] [Key.char '/', Key.char 'a']

/-- C8: an Escape key event in Search mode, whatever the query held before,
clears the query, sets the mode to Normal and triggers a redraw
(src/app.rs:84-88). -/
theorem c8_esc_clears_query (q : List Char) (buffer : List (List Char)) :
    step ⟨Mode.Search, q, buffer⟩ Key.esc = StepResult.cont ⟨Mode.Normal, [], buffer⟩ true := rfl

/-- C8 witness: Escape with the query `"al"` (the spec's Scenario 4). -/
theorem c8_esc_clears_query_witness :
    step ⟨Mode.Search, "al".toList, ["alpha\n".toList]⟩ Key.esc =
      StepResult.cont ⟨Mode.Normal, [], ["alpha\n".toList]⟩ true :=
  c8_esc_clears_query "al".toList ["alpha\n".toList]

/-- C9: Backspace in Search mode with an empty query is a no-op on the query
(`Vec::pop` on an empty vector), keeps the mode Search, and still triggers a
redraw, with no failure (src/app.rs:73-76). -/
theorem c9_backspace_empty_noop (buffer : List (List Char)) :
    step ⟨Mode.Search, [], buffer⟩ Key.backspace = StepResult.cont ⟨Mode.Search, [], buffer⟩ true := rfl

/-- C9 witness: Backspace on the empty query over a concrete buffer. -/
theorem c9_backspace_empty_noop_witness :
    step ⟨Mode.Search, [], ["alpha\n".toList]⟩ Key.backspace =
      StepResult.cont ⟨Mode.Search, [], ["alpha\n".toList]⟩ true :=
  c9_backspace_empty_noop ["alpha\n".toList]

/-- C10: in Normal mode the `/` key sets the mode to Search and changes
nothing else — query and buffer are untouched and no redraw is performed
(src/app.rs:67-69 calls no `redraw`), so entering Search mode produces no
screen update. -/
theorem c10_slash_enters_search_silently (q : List Char) (buffer : List (List Char)) :
    step ⟨Mode.Normal, q, buffer⟩ (Key.char '/') = StepResult.cont ⟨Mode.Search, q, buffer⟩ false := rfl

/-- C10 witness: `/` pressed in the initial Normal state of a concrete
buffer. -/
theorem c10_slash_enters_search_silently_witness :
    step ⟨Mode.Normal, [], ["alpha\n".toList]⟩ (Key.char '/') =
      StepResult.cont ⟨Mode.Search, [], ["alpha\n".toList]⟩ false :=
  c10_slash_enters_search_silently [] ["alpha\n".toList]

/-- C3 amended: with an empty query every line **matches** the degenerate
pattern `(.*)(?P<m>)(.*)`; the matched substring of every capture is empty and
the characters the redraw writes for the line equal the line with its trailing
newline stripped, so the line still reads verbatim on screen — but highlight
toggles are emitted (see the counterexample). -/
theorem c3_empty_query_degenerate_match (h : List Char) :
    modelIsMatch h [] = true ∧
    ((modelCaptures h []).all fun s => s.mat.isEmpty) = true ∧
    segsText (modelCaptures h []) = stripNl h := by
  unfold modelIsMatch modelCaptures segsText
  by_cases h1 : hasTrailingNl h <;> by_cases h2 : stripNl h = [] <;> simp [h1, h2]

/-- C3 witness: the empty-query capture structure of the line `"alpha\n"`. -/
theorem c3_empty_query_degenerate_match_witness :
    modelIsMatch ("alpha\n".toList) [] = true ∧
    ((modelCaptures ("alpha\n".toList) []).all fun s => s.mat.isEmpty) = true ∧
    segsText (modelCaptures ("alpha\n".toList) []) = stripNl ("alpha\n".toList) :=
  c3_empty_query_degenerate_match ("alpha\n".toList)

/-- Helper: a position returned by the downward scan is an occurrence. -/
theorem lastOccFrom_sound (text q : List Char) :
    ∀ n i, lastOccFrom text q n = some i → occursAt text q i = true := by
  intro n
  induction n with
  | zero =>
    intro i h
    simp only [lastOccFrom] at h
    split at h
    · cases h; assumption
    · cases h
  | succ n ih =>
    intro i h
    simp only [lastOccFrom] at h
    split at h
    · cases h; assumption
    · exact ih i h

/-- Helper: the downward scan returns the greatest occurrence index in its
range — no occurrence lies strictly above it (within the range). -/
theorem lastOccFrom_max (text q : List Char) :
    ∀ n i, lastOccFrom text q n = some i →
      ∀ j, j ≤ n → i < j → occursAt text q j = false := by
  intro n
  induction n with
  | zero =>
    intro i h j hj hij
    simp only [lastOccFrom] at h
    split at h
    · cases h; omega
    · cases h
  | succ n ih =>
    intro i h j hj hij
    simp only [lastOccFrom] at h
    split at h
    · cases h; omega
    · rcases Nat.lt_or_ge j (n + 1) with hlt | hge
      · exact ih i h j (by omega) hij
      · have hj2 : j = n + 1 := by omega
        subst hj2
        simp_all

/-- Helper: if an occurrence exists in range, the downward scan finds one. -/
theorem lastOccFrom_complete (text q : List Char) :
    ∀ n j, j ≤ n → occursAt text q j = true → (lastOccFrom text q n).isSome = true := by
  intro n
  induction n with
  | zero =>
    intro j hj hocc
    have hj0 : j = 0 := by omega
    subst hj0
    simp [lastOccFrom, hocc]
  | succ n ih =>
    intro j hj hocc
    by_cases hS : occursAt text q (n + 1) = true
    · simp [lastOccFrom, hS]
    · have hj2 : j ≤ n := by
        rcases Nat.lt_or_ge j (n + 1) with hlt | hge
        · omega
        · exfalso
          have hj3 : j = n + 1 := by omega
          subst hj3
          simp_all
      simp only [lastOccFrom, hS, if_false, Bool.false_eq_true, ite_false]
      exact ih j hj2 hocc

/-- Helper: a non-empty needle has no occurrence past the end of the text. -/
theorem occursAt_beyond (text q : List Char) (hq : q ≠ []) (j : Nat)
    (hj : text.length < j) : occursAt text q j = false := by
  unfold occursAt
  rw [List.drop_eq_nil_of_le (Nat.le_of_lt hj)]
  cases q with
  | nil => exact absurd rfl hq
  | cons a as => rfl

/-- Helper: an occurrence splits the text as prefix ++ needle ++ suffix. -/
theorem occursAt_decomp (text q : List Char) (i : Nat) (h : occursAt text q i = true) :
    text.take i ++ (q ++ text.drop (i + q.length)) = text := by
  unfold occursAt at h
  rw [List.isPrefixOf_iff_prefix] at h
  obtain ⟨t, ht⟩ := h
  have h2 := congrArg (List.drop q.length) ht
  rw [List.drop_left, List.drop_drop] at h2
  rw [← h2, ht]
  exact List.take_append_drop i text

/-- C5 amended: for a non-empty literal query occurring in a line (of the
shape `read_line` produces), the engine yields **exactly one**
(prefix, match, suffix) capture, matched case-sensitively; the occurrence it
highlights is the **last** one — no occurrence of the query starts after it —
because the greedy leading `(.*)` of the pattern consumes up to the final
occurrence; prefix, match and suffix reassemble the newline-stripped line. -/
theorem c5_engine_highlights_last_occurrence (q h : List Char) (hq : q ≠ [])
    (hline : lineShaped h = true) (hlit : literalQuery q = true)
    (j : Nat) (hocc : occursAt (stripNl h) q j = true) :
    ∃ i, occursAt (stripNl h) q i = true ∧
      modelCaptures h q = [⟨(stripNl h).take i, q, (stripNl h).drop (i + q.length)⟩] ∧
      (∀ j2, i < j2 → occursAt (stripNl h) q j2 = false) ∧
      (stripNl h).take i ++ (q ++ (stripNl h).drop (i + q.length)) = stripNl h := by
  have hj : j ≤ (stripNl h).length := by
    by_contra hgt
    push_neg at hgt
    rw [occursAt_beyond (stripNl h) q hq j hgt] at hocc
    cases hocc
  have hsome := lastOccFrom_complete (stripNl h) q (stripNl h).length j hj hocc
  obtain ⟨i, hi⟩ := Option.isSome_iff_exists.mp hsome
  have hiocc := lastOccFrom_sound (stripNl h) q (stripNl h).length i hi
  refine ⟨i, hiocc, ?_, ?_, occursAt_decomp (stripNl h) q i hiocc⟩
  · simp only [modelCaptures, lastOcc]
    rw [if_neg hq, hi]
  · intro j2 hij2
    by_cases hcase : j2 ≤ (stripNl h).length
    · exact lastOccFrom_max (stripNl h) q (stripNl h).length i hi j2 hcase hij2
    · exact occursAt_beyond (stripNl h) q hq j2 (by omega)

/-- C5 witness: on the line `"banana\n"` with query `"a"` the theorem applies
(the occurrence at index 1 discharges the containment hypothesis). -/
theorem c5_engine_highlights_last_occurrence_witness :
    ∃ i, occursAt (stripNl ("banana\n".toList)) ['a'] i = true ∧
      modelCaptures ("banana\n".toList) ['a'] =
        [⟨(stripNl ("banana\n".toList)).take i, ['a'],
          (stripNl ("banana\n".toList)).drop (i + (['a'] : List Char).length)⟩] ∧
      (∀ j2, i < j2 → occursAt (stripNl ("banana\n".toList)) ['a'] j2 = false) ∧
      (stripNl ("banana\n".toList)).take i ++
        (['a'] ++ (stripNl ("banana\n".toList)).drop (i + (['a'] : List Char).length)) =
        stripNl ("banana\n".toList) :=
  c5_engine_highlights_last_occurrence ['a'] ("banana\n".toList)
    (by decide) (by decide) (by decide) 1 (by decide)
